import Mathlib

/- Shallow embedding of the AT-response parsers in `src/src/gsm/gsm_parser.c`
   of GSM_AT_Lib.  C strings are modelled as `List Char`: the end of the list
   plays the role of the NUL terminator (response lines contain no NUL bytes,
   so `*p == 0` holds exactly at the end of the list).  Machine integers are
   modelled as `Int`/`Nat`; where the C code performs defined wrap-around
   arithmetic this is written with an explicit `% 2 ^ w`.  The signed
   `int32_t` accumulator of `gsmi_parse_number` can overflow only through C
   undefined behaviour, so it is modelled as exact `Int` arithmetic. -/

/-- Decimal-digit test, modelling the `GSM_CHARISNUM` macro
(`(x) >= '0' && (x) <= '9'`). -/
def charIsNum (c : Char) : Bool := 48 ≤ c.toNat && c.toNat ≤ 57

/-- Value of a character relative to `'0'`, modelling `GSM_CHARTONUM`
(`(x) - '0'`), over `Int`. -/
def charToInt (c : Char) : Int := (c.toNat : Int) - 48

/-- One conditional single-character skip, the C pattern `if (*p == c) p++;`. -/
def skipIf (c : Char) : List Char → List Char
  | [] => []
  | x :: xs => if x = c then xs else x :: xs

/-- Abbreviation turning a string literal into the `List Char` model. -/
def toL (s : String) : List Char := s.toList

/-- Skip of the fixed 7-character response keyword prefix:
`if (*str == '+') str += 7;`. -/
def dropPlus (s : List Char) : List Char := if s.head? = some '+' then s.drop 7 else s

/-- Digit-accumulation loop of `gsmi_parse_number`
(`while (GSM_CHARISNUM(*p)) val = val * 10 + GSM_CHARTONUM(*p);`). -/
def digitsLoop : Int → List Char → Int × List Char
  | v, [] => (v, [])
  | v, c :: cs => if charIsNum c then digitsLoop (v * 10 + charToInt c) cs else (v, c :: cs)

/-- Leading-skip phase of `gsmi_parse_number`: the fixed chain of one-character
skips (`"`, `,`, `"`, `/`, `:`, `+`) followed by the minus-sign check; returns
the sign flag and the remaining cursor. -/
def skipLeadAndSign (s : List Char) : Bool × List Char :=
  let p := skipIf '"' s
  let p := skipIf ',' p
  let p := skipIf '"' p
  let p := skipIf '/' p
  let p := skipIf ':' p
  let p := skipIf '+' p
  match p with
  | [] => (false, [])
  | c :: rest => if c = '-' then (true, rest) else (false, c :: rest)

/-- Embedding of `gsmi_parse_number`: leading skips, optional minus, decimal
digits, one optional trailing comma. -/
def gsmi_parse_number (s : List Char) : Int × List Char :=
  let ms := skipLeadAndSign s
  let vr := digitsLoop 0 ms.2
  ((if ms.1 then -vr.1 else vr.1), skipIf ',' vr.2)

/-- Specification-side value of a digit string (most significant digit
first). -/
def decVal (ds : List Char) : Int := ds.foldl (fun x c => x * 10 + charToInt c) 0

/-- Result of `gsmi_parse_string`: `written` is the sequence of characters
copied into `dst` in order (`none` when `dst == NULL`); the terminating NUL
that the C code additionally stores whenever `dst != NULL` is implicit.
`rest` is the final cursor. -/
structure StrRes where
  written : Option (List Char)
  rest : List Char
  ret : Bool
deriving DecidableEq

/-- Copy loop of `gsmi_parse_string`: `cap` is the already-decremented
`dst_len`, `i` the number of characters copied so far, `acc` the characters
copied so far.  Returns the copied characters and the final cursor. -/
def parse_string_loop (cap : Nat) (dstPresent trim : Bool) :
    Nat → List Char → List Char → List Char × List Char
  | _, acc, [] => (acc, [])
  | i, acc, c :: cs =>
    if c = '"' ∧ (cs.head? = some ',' ∨ cs.head? = some '\r' ∨ cs.head? = some '\n') then
      (acc, cs)
    else if dstPresent then
      if i < cap then parse_string_loop cap dstPresent trim (i + 1) (acc ++ [c]) cs
      else if !trim then (acc, c :: cs)
      else parse_string_loop cap dstPresent trim i acc cs
    else parse_string_loop cap dstPresent trim i acc cs

/-- Embedding of `gsmi_parse_string`. -/
def gsmi_parse_string (src : List Char) (dstPresent : Bool) (dst_len : Nat) (trim : Bool) :
    StrRes :=
  let p := skipIf ',' src
  let p := skipIf '"' p
  let r := parse_string_loop (dst_len - 1) dstPresent trim 0 [] p
  ⟨if dstPresent then some r.1 else none, r.2, true⟩

/-- Number of bytes stored through `dst` by a `gsmi_parse_string` call:
the copied characters plus the unconditional terminating NUL when
`dst != NULL`, nothing otherwise. -/
def bytesWritten (r : StrRes) : Nat :=
  match r.written with
  | some l => l.length + 1
  | none => 0

/-- Embedding of `gsmi_check_and_trim`. -/
def gsmi_check_and_trim (src : List Char) : List Char :=
  let t := src.head?.getD '\x00'
  if t ≠ '"' ∧ t ≠ '\r' ∧ t ≠ ',' then (gsmi_parse_string src false 0 true).rest
  else src

/-- Truth value of `strncmp(a, b, n) == 0` for NUL-free strings modelled as
`List Char` (the end of a list is its NUL terminator). -/
def strncmp_eq : List Char → List Char → Nat → Bool
  | _, _, 0 => true
  | [], [], _ + 1 => true
  | [], _ :: _, _ + 1 => false
  | _ :: _, [], _ + 1 => false
  | x :: xs, y :: ys, n + 1 => x == y && strncmp_eq xs ys n

/-- Embedding of `gsmi_parse_memory`.  The device memory table
`gsm_dev_mem_map` (ordered list of literal-prefix / identifier pairs) and the
sentinel `GSM_MEM_UNKNOWN` live in headers that are not under `src/`, so they
are taken as the parameters `memMap` and `unknown`. -/
def gsmi_parse_memory (memMap : List (List Char × Nat)) (unknown : Nat) (src : List Char) :
    Nat × List Char :=
  let s := skipIf ',' src
  let s := skipIf '"' s
  let mr :=
    match memMap.find? (fun e => e.1.isPrefixOf s) with
    | some e => (e.2, s.drop e.1.length)
    | none => (unknown, s)
  let s := if mr.1 = unknown then (gsmi_parse_string mr.2 false 0 true).rest else mr.2
  let s := skipIf '"' s
  (mr.1, s)

/-- The do-while loop of `gsmi_parse_memories_string`, with explicit fuel.
The C loop does not terminate if `gsmi_parse_memory` fails to advance the
cursor (possible only for a memory table holding an empty literal); the fuel
`src.length + 1` supplied by `gsmi_parse_memories_string` covers every
terminating execution, and on fuel exhaustion the accumulated mask is
returned. -/
def memories_loop (memMap : List (List Char × Nat)) (unknown : Nat) :
    Nat → List Char → Nat → Nat × List Char
  | 0, s, mask => (mask, s)
  | fuel + 1, s, mask =>
    let mr := gsmi_parse_memory memMap unknown s
    let mask' := (mask ||| ((1 <<< mr.1) % 2 ^ 32)) % 2 ^ 32
    match mr.2 with
    | [] => (mask', [])
    | c :: cs => if c = ')' then (mask', c :: cs) else memories_loop memMap unknown fuel (c :: cs) mask'

/-- Embedding of `gsmi_parse_memories_string`: strips `,` and `(`, repeatedly
parses memory identifiers OR-ing `1 << mem` (as `uint32_t`) into the mask,
consumes a closing `)` if present, and returns 1. -/
def gsmi_parse_memories_string (memMap : List (List Char × Nat)) (unknown : Nat)
    (src : List Char) : Bool × Nat × List Char :=
  let s := skipIf ',' src
  let s := skipIf '(' s
  let r := memories_loop memMap unknown (s.length + 1) s 0
  (true, r.1, skipIf ')' r.2)

/-- Modelled from the spec: the `+CREG` status code for "attached to home
network" (`GSM_NETWORK_REG_STATUS_CONNECTED`); the enumeration lives in a
header that is not under `src/`, value 1 per the AT `+CREG` convention. -/
def GSM_NETWORK_REG_STATUS_CONNECTED : Int := 1

/-- Modelled from the spec: the `+CREG` status code for "attached, roaming"
(`GSM_NETWORK_REG_STATUS_CONNECTED_ROAMING`), value 5 per the AT `+CREG`
convention. -/
def GSM_NETWORK_REG_STATUS_CONNECTED_ROAMING : Int := 5

/-- Observable outcome of `gsmi_parse_creg`: returned value, the registration
status stored into `gsm.network.status`, whether the follow-up
`gsm_operator_get(0)` was issued, and the local callback flag `cb`. -/
structure CregRes where
  ret : Bool
  status : Int
  op_get_requested : Bool
  cb : Bool
deriving DecidableEq

/-- Embedding of `gsmi_parse_creg`.  The external enqueue call
`gsm_operator_get(0)` (scheduler interface, not under `src/`) is abstracted by
the parameter `enqueueOk`, true iff it would return `gsmOK`. -/
def gsmi_parse_creg (str : List Char) (skip_first : Bool) (enqueueOk : Bool) : CregRes :=
  let s := dropPlus str
  let s := if skip_first then (gsmi_parse_number s).2 else s
  let status := (gsmi_parse_number s).1
  if status = GSM_NETWORK_REG_STATUS_CONNECTED ∨
      status = GSM_NETWORK_REG_STATUS_CONNECTED_ROAMING then
    ⟨true, status, true, !enqueueOk⟩
  else
    ⟨true, status, false, true⟩

/-- SIM states stored into `gsm.sim_state` by `gsmi_parse_cpin`. -/
inductive gsm_sim_state
  | READY
  | NOT_READY
  | NOT_INSERTED
  | PIN
  | PUK
deriving DecidableEq

/-- Observable outcome of `gsmi_parse_cpin`: the SIM state stored, whether the
secondary `gsmi_get_sim_info(0)` request was issued, the event payload passed
to `gsmi_send_cb` (when `send_evt`), and the returned value. -/
structure CpinRes where
  sim_state : gsm_sim_state
  sim_info_requested : Bool
  evt : Option gsm_sim_state
  ret : Bool
deriving DecidableEq

/-- Embedding of `gsmi_parse_cpin`: literal-phrase matching via `strncmp` with
the character counts of the C source, in source order. -/
def gsmi_parse_cpin (str : List Char) (send_evt : Bool) : CpinRes :=
  let s := dropPlus str
  let st :=
    if strncmp_eq s (toL ("READY")) 5 then gsm_sim_state.READY
    else if strncmp_eq s (toL ("NOT READY")) 9 then gsm_sim_state.NOT_READY
    else if strncmp_eq s (toL ("NOT INSERTED")) 14 then gsm_sim_state.NOT_INSERTED
    else if strncmp_eq s (toL ("SIM PIN")) 7 then gsm_sim_state.PIN
    else if strncmp_eq s (toL ("PIN PUK")) 7 then gsm_sim_state.PUK
    else gsm_sim_state.NOT_READY
  ⟨st, decide (st = gsm_sim_state.READY), if send_evt then some st else none, true⟩

/-- Specification-side phrase table of `gsmi_parse_cpin`: literal phrase,
`strncmp` length, resulting SIM state, in the priority order of the spec. -/
def cpinPatternTable : List (List Char × Nat × gsm_sim_state) :=
  [(toL ("READY"), 5, gsm_sim_state.READY),
   (toL ("NOT READY"), 9, gsm_sim_state.NOT_READY),
   (toL ("NOT INSERTED"), 14, gsm_sim_state.NOT_INSERTED),
   (toL ("SIM PIN"), 7, gsm_sim_state.PIN),
   (toL ("PIN PUK"), 7, gsm_sim_state.PUK)]

/-- First matching entry of a phrase table, defaulting to not-ready;
specification-side description of the matching discipline of §4.2. -/
def firstMatchIn (s : List Char) : List (List Char × Nat × gsm_sim_state) → gsm_sim_state
  | [] => gsm_sim_state.NOT_READY
  | e :: rest => if strncmp_eq s e.1 e.2.1 then e.2.2 else firstMatchIn s rest

/-- Specification-side SIM-state decoder: first match in the phrase table,
default not-ready. -/
def cpinFirstMatch (s : List Char) : gsm_sim_state := firstMatchIn s cpinPatternTable

/-- Modelled from the spec: `+COPS` format code "long alphanumeric name"
(`GSM_OPERATOR_FORMAT_LONG_NAME`); the enumeration is in a header not under
`src/`, values 0/1/2 per the AT `+COPS` convention. -/
def GSM_OPERATOR_FORMAT_LONG_NAME : Int := 0

/-- Modelled from the spec: `+COPS` format code "short alphanumeric name". -/
def GSM_OPERATOR_FORMAT_SHORT_NAME : Int := 1

/-- Modelled from the spec: `+COPS` format code "numeric operator code". -/
def GSM_OPERATOR_FORMAT_NUMBER : Int := 2

/-- Modelled from the spec: the sentinel `GSM_OPERATOR_FORMAT_INVALID`
(distinct from the three real format codes; numeric value immaterial). -/
def GSM_OPERATOR_FORMAT_INVALID : Int := 255

/-- Payload union `data` of the current-operator record: the C union is
modelled as a sum, each store replacing the whole payload. -/
inductive op_data
  | long_n (s : List Char)
  | short_n (s : List Char)
  | num (n : Int)
deriving DecidableEq

/-- The `gsm.network.curr_operator` device-state record. -/
structure gsm_operator_curr where
  mode : Int
  format : Int
  data : op_data
deriving DecidableEq

/-- Command-kind tags (`cmd_def`) of the active-command record, restricted to
the commands the embedded parsers inspect, plus catch-all values. -/
inductive gsm_cmd
  | CMGL
  | CPBR
  | CPBF
  | COPS_GET
  | COPS_SCAN
  | NONE
deriving DecidableEq

/-- One entry of the `+COPS=?` scan output array (`gsm_operator_t`). -/
structure gsm_operator_t where
  stat : Int
  long_name : List Char
  short_name : List Char
  num : Int
deriving DecidableEq

/-- Phonebook entry record (`gsm_pb_entry_t`). -/
structure gsm_pb_entry where
  pos : Int
  name : List Char
  type : Int
  number : List Char
deriving DecidableEq

/-- Date-time record (`gsm_datetime_t`). -/
structure gsm_datetime where
  date : Int
  month : Int
  year : Int
  hours : Int
  minutes : Int
  seconds : Int
deriving DecidableEq

/-- SMS entry status values (`gsm_sms_status_t`); `ALL` doubles as the
no-match sentinel inside `gsmi_parse_sms_status`. -/
inductive gsm_sms_status
  | UNREAD
  | READ
  | UNSENT
  | SENT
  | ALL
deriving DecidableEq

/-- SMS entry record (`gsm_sms_entry_t`). -/
structure gsm_sms_entry where
  mem : Nat
  pos : Int
  status : gsm_sms_status
  number : List Char
  name : List Char
  datetime : gsm_datetime
deriving DecidableEq

/-- Output slot of a phonebook list/search command (`msg.pb_list` /
`msg.pb_search`): write index `ei`, capacity `etr`, destination array
`entries`, and the value behind the optional `er` result pointer. -/
structure PbListArm where
  ei : Nat
  etr : Nat
  entries : List gsm_pb_entry
  er : Option Nat
deriving DecidableEq

/-- Output slot of an SMS list command (`msg.sms_list`). -/
structure SmsListArm where
  mem : Nat
  ei : Nat
  etr : Nat
  entries : List gsm_sms_entry
deriving DecidableEq

/-- Output slot of an operator scan command (`msg.cops_scan`): write index
`opsi`, capacity `opsl`, destination array `ops`, and the value behind the
optional observer pointer `opf`. -/
structure CopsScanArm where
  opsi : Nat
  opsl : Nat
  ops : List gsm_operator_t
  opf : Option Nat
deriving DecidableEq

/-- The active-command record `*gsm.msg`.  The C `gsm_msg_t` holds a union
over command payloads; since every parser reads only the arm selected by its
`cmd_def` check, the union is modelled as a product of arms.
`cops_get_curr` is the value behind the `msg.cops_get.curr` pointer
(`none` = NULL). -/
structure gsm_msg where
  cmd_def : gsm_cmd
  pb_list : PbListArm
  pb_search : PbListArm
  sms_list : SmsListArm
  cops_scan : CopsScanArm
  cops_get_curr : Option gsm_operator_curr
deriving DecidableEq

/-- Embedding of `gsmi_parse_cops`.  `lnl`/`snl` are
`sizeof(curr_operator.data.long_name)` / `...short_name` (configuration
constants not under `src/`).  Returns the updated device-state operator
record and active-command record. -/
def gsmi_parse_cops (lnl snl : Nat) (str : List Char) (curr : gsm_operator_curr)
    (gmsg : Option gsm_msg) : gsm_operator_curr × Option gsm_msg :=
  let s := dropPlus str
  let r1 := gsmi_parse_number s
  let curr1 : gsm_operator_curr := { curr with mode := r1.1 }
  let curr2 :=
    if r1.2.head? ≠ some '\r' then
      let r2 := gsmi_parse_number r1.2
      let c : gsm_operator_curr := { curr1 with format := r2.1 }
      if r2.2.head? ≠ some '\r' then
        if r2.1 = GSM_OPERATOR_FORMAT_LONG_NAME then
          { c with data := op_data.long_n ((gsmi_parse_string r2.2 true lnl true).written.getD []) }
        else if r2.1 = GSM_OPERATOR_FORMAT_SHORT_NAME then
          { c with data := op_data.short_n ((gsmi_parse_string r2.2 true snl true).written.getD []) }
        else if r2.1 = GSM_OPERATOR_FORMAT_NUMBER then
          { c with data := op_data.num (gsmi_parse_number r2.2).1 }
        else c
      else c
    else { curr1 with format := GSM_OPERATOR_FORMAT_INVALID }
  let gmsg' :=
    match gmsg with
    | some m =>
      if m.cmd_def = gsm_cmd.COPS_GET ∧ m.cops_get_curr ≠ none then
        some { m with cops_get_curr := some curr2 }
      else some m
    | none => none
  (curr2, gmsg')

/-- The `static` flag union of `gsmi_parse_cops_scan`: bracket-open, two
commas detected, 2-bit term number, `uint8_t` term position and previous
character. -/
structure cops_scan_flags where
  bo : Bool
  ccd : Bool
  tn : Nat
  tp : Nat
  ch_prev : Char
deriving DecidableEq

/-- The flag state after the `memset`-reset branch of `gsmi_parse_cops_scan`. -/
def cops_scan_reset : cops_scan_flags := ⟨false, false, 0, 0, '\x00'⟩

/-- Result of one `gsmi_parse_cops_scan` feed: returned value, new flag
state, new active-command record, and the trace of long/short-name character
stores performed by this step (`(isLongName, index)` for each
`name[tp] = ch`; the guarded NUL terminator store is not traced). -/
structure ScanRes where
  ret : Bool
  u : cops_scan_flags
  msg : gsm_msg
  nameWrites : List (Bool × Nat)
deriving DecidableEq

/-- The data-character switch of `gsmi_parse_cops_scan` (the `switch (u.f.tn)`
on a character that is not `)`, `,` or `"` while the bracket is open):
accumulate status digits, copy long/short-name characters under the
reserved-terminator capacity check, accumulate numeric-code digits.  The
`stat`/`num` accumulators are modelled over `Int` (the C enum/`uint32_t`
casts wrap only on inputs that also overflow the decimal accumulation). -/
def cops_scan_data (lnl snl : Nat) (ch : Char) (u1 : cops_scan_flags) (m : gsm_msg) : ScanRes :=
  let i := m.cops_scan.opsi
  let o := (m.cops_scan.ops.get? i).getD ⟨0, [], [], 0⟩
  if u1.tn = 0 then
    ⟨true, { u1 with ch_prev := ch },
      { m with cops_scan := { m.cops_scan with
        ops := m.cops_scan.ops.set i { o with stat := 10 * o.stat + charToInt ch } } }, []⟩
  else if u1.tn = 1 then
    if u1.tp < lnl - 1 then
      ⟨true, { u1 with tp := (u1.tp + 1) % 256, ch_prev := ch },
        { m with cops_scan := { m.cops_scan with
          ops := m.cops_scan.ops.set i
            { o with long_name := (o.long_name.set u1.tp ch).set (u1.tp + 1) '\x00' } } },
        [(true, u1.tp)]⟩
    else ⟨true, { u1 with ch_prev := ch }, m, []⟩
  else if u1.tn = 2 then
    if u1.tp < snl - 1 then
      ⟨true, { u1 with tp := (u1.tp + 1) % 256, ch_prev := ch },
        { m with cops_scan := { m.cops_scan with
          ops := m.cops_scan.ops.set i
            { o with short_name := (o.short_name.set u1.tp ch).set (u1.tp + 1) '\x00' } } },
        [(false, u1.tp)]⟩
    else ⟨true, { u1 with ch_prev := ch }, m, []⟩
  else if u1.tn = 3 then
    ⟨true, { u1 with ch_prev := ch },
      { m with cops_scan := { m.cops_scan with
        ops := m.cops_scan.ops.set i { o with num := 10 * o.num + charToInt ch } } }, []⟩
  else ⟨true, { u1 with ch_prev := ch }, m, []⟩

/-- The bracket-open branch of `gsmi_parse_cops_scan`: `)` commits the record
(count increment, observer publish), `,` advances the 2-bit term counter,
`"` is ignored, anything else is a data character. -/
def cops_scan_inrec (lnl snl : Nat) (ch : Char) (u1 : cops_scan_flags) (m : gsm_msg) : ScanRes :=
  if ch = ')' then
    let i' := m.cops_scan.opsi + 1
    ⟨true, { u1 with bo := false, tn := 0, tp := 0, ch_prev := ch },
      { m with cops_scan :=
        { m.cops_scan with opsi := i', opf := m.cops_scan.opf.map (fun _ => i') } }, []⟩
  else if ch = ',' then
    ⟨true, { u1 with tn := (u1.tn + 1) % 4, tp := 0, ch_prev := ch }, m, []⟩
  else if ch = '"' then ⟨true, { u1 with ch_prev := ch }, m, []⟩
  else cops_scan_data lnl snl ch u1 m

/-- Embedding of `gsmi_parse_cops_scan`; `lnl`/`snl` are
`sizeof(ops[i].long_name)` / `...short_name`. -/
def gsmi_parse_cops_scan (lnl snl : Nat) (ch : Char) (reset : Bool)
    (u : cops_scan_flags) (m : gsm_msg) : ScanRes :=
  if reset then ⟨true, cops_scan_reset, m, []⟩
  else if u.ch_prev = '\x00' ∧ ch = ' ' then ⟨true, u, m, []⟩
  else
    let u1 := if u.ch_prev = '\x00' ∧ ch = ',' then { u with ccd := true } else u
    if u1.ccd ∨ m.cops_scan.opsi ≥ m.cops_scan.opsl then ⟨true, u1, m, []⟩
    else if u1.bo then cops_scan_inrec lnl snl ch u1 m
    else
      if ch = '(' then ⟨true, { u1 with bo := true, ch_prev := ch }, m, []⟩
      else if ch = ',' ∧ u1.ch_prev = ',' then
        ⟨true, { u1 with ccd := true, ch_prev := ch }, m, []⟩
      else ⟨true, { u1 with ch_prev := ch }, m, []⟩

/-- Feeding a sequence of characters (no resets) to the operator-scan state
machine, threading flag state and active-command record. -/
def cops_scan_feed (lnl snl : Nat) : List Char → cops_scan_flags → gsm_msg →
    cops_scan_flags × gsm_msg
  | [], u, m => (u, m)
  | c :: cs, u, m =>
    let r := gsmi_parse_cops_scan lnl snl c false u m
    cops_scan_feed lnl snl cs r.u r.msg

/-- Embedding of `gsmi_parse_datetime`: six `gsmi_parse_number` calls
(`dd/mm/yy,hh:mm:ss`, year offset from 2000) followed by
`gsmi_check_and_trim`. -/
def gsmi_parse_datetime (src : List Char) : gsm_datetime × List Char :=
  let d := gsmi_parse_number src
  let mo := gsmi_parse_number d.2
  let y := gsmi_parse_number mo.2
  let h := gsmi_parse_number y.2
  let mi := gsmi_parse_number h.2
  let se := gsmi_parse_number mi.2
  (⟨d.1, mo.1, 2000 + y.1, h.1, mi.1, se.1⟩, gsmi_check_and_trim se.2)

/-- Embedding of `gsmi_parse_sms_status`: parses a string of capacity 11 and
matches it against the four literal phrases with `strcmp`; `none` models the
failure return 0 (in which case `*stat` is not written). -/
def gsmi_parse_sms_status (src : List Char) : Option gsm_sms_status × List Char :=
  let r := gsmi_parse_string src true 11 true
  let t := r.written.getD []
  let s :=
    if t = toL ("REC UNREAD") then gsm_sms_status.UNREAD
    else if t = toL ("REC READ") then gsm_sms_status.READ
    else if t = toL ("STO UNSENT") then gsm_sms_status.UNSENT
    else if t = toL ("REC SENT") then gsm_sms_status.SENT
    else gsm_sms_status.ALL
  (if s ≠ gsm_sms_status.ALL then some s else none, r.rest)

/-- The field sequence of `gsmi_parse_cpbr`/`gsmi_parse_cpbf` building one
phonebook entry from the line: position, name, type, number.  `name_len` /
`num_len` are `sizeof(e->name)` / `sizeof(e->number)` (configuration
constants not under `src/`). -/
def pb_entry_from_line (name_len num_len : Nat) (str : List Char) : gsm_pb_entry :=
  let s := dropPlus str
  let p := gsmi_parse_number s
  let r1 := gsmi_parse_string p.2 true name_len true
  let t := gsmi_parse_number r1.rest
  let r2 := gsmi_parse_string t.2 true num_len true
  ⟨p.1, r1.written.getD [], t.1, r2.written.getD []⟩

/-- Embedding of `gsmi_parse_cpbr`: guard on active command and capacity,
then write one entry and advance the write cursor, publishing it through
`er` when present. -/
def gsmi_parse_cpbr (name_len num_len : Nat) (str : List Char) (gmsg : Option gsm_msg) :
    Bool × Option gsm_msg :=
  match gmsg with
  | none => (false, none)
  | some m =>
    if m.cmd_def ≠ gsm_cmd.CPBR ∨ m.pb_list.ei ≥ m.pb_list.etr then (false, some m)
    else
      let pl := m.pb_list
      let e := pb_entry_from_line name_len num_len str
      (true, some { m with pb_list :=
        ⟨pl.ei + 1, pl.etr, pl.entries.set pl.ei e, pl.er.map (fun _ => pl.ei + 1)⟩ })

/-- Embedding of `gsmi_parse_cpbf`: identical body to `gsmi_parse_cpbr` over
the `pb_search` arm and the `CPBF` command tag. -/
def gsmi_parse_cpbf (name_len num_len : Nat) (str : List Char) (gmsg : Option gsm_msg) :
    Bool × Option gsm_msg :=
  match gmsg with
  | none => (false, none)
  | some m =>
    if m.cmd_def ≠ gsm_cmd.CPBF ∨ m.pb_search.ei ≥ m.pb_search.etr then (false, some m)
    else
      let pl := m.pb_search
      let e := pb_entry_from_line name_len num_len str
      (true, some { m with pb_search :=
        ⟨pl.ei + 1, pl.etr, pl.entries.set pl.ei e, pl.er.map (fun _ => pl.ei + 1)⟩ })

/-- The field sequence of `gsmi_parse_cmgl` building one SMS entry: memory
(copied from the command), position, status (old value kept when the status
token fails to parse), number, name, date-time. -/
def sms_entry_from_line (num_len name_len : Nat) (mem : Nat) (str : List Char)
    (old : gsm_sms_entry) : gsm_sms_entry :=
  let s := dropPlus str
  let p := gsmi_parse_number s
  let st := gsmi_parse_sms_status p.2
  let r1 := gsmi_parse_string st.2 true num_len true
  let r2 := gsmi_parse_string r1.rest true name_len true
  let dt := gsmi_parse_datetime r2.rest
  ⟨mem, p.1, st.1.getD old.status, r1.written.getD [], r2.written.getD [], dt.1⟩

/-- Embedding of `gsmi_parse_cmgl`: guard on active command and capacity,
then write one entry at the current write cursor.  The C source does not
increment `ei` here. -/
def gsmi_parse_cmgl (num_len name_len : Nat) (str : List Char) (gmsg : Option gsm_msg) :
    Bool × Option gsm_msg :=
  match gmsg with
  | none => (false, none)
  | some m =>
    if m.cmd_def ≠ gsm_cmd.CMGL ∨ m.sms_list.ei ≥ m.sms_list.etr then (false, some m)
    else
      let sl := m.sms_list
      let old := (sl.entries.get? sl.ei).getD ⟨0, 0, gsm_sms_status.READ, [], [], ⟨0, 0, 0, 0, 0, 0⟩⟩
      let e := sms_entry_from_line num_len name_len sl.mem str old
      (true, some { m with sms_list := ⟨sl.mem, sl.ei, sl.etr, sl.entries.set sl.ei e⟩ })

/-- One SMS memory-pool record of the device state (`gsm.sms.mem[i]`). -/
structure gsm_sms_mem_info where
  mem_available : Nat
  current : Nat
  used : Int
  total : Int
deriving DecidableEq

/-- In-place update of pool `i` of the three-pool array. -/
def setPool (ps : List gsm_sms_mem_info) (i : Nat) (f : gsm_sms_mem_info → gsm_sms_mem_info) :
    List gsm_sms_mem_info :=
  match ps.get? i with
  | some p => ps.set i (f p)
  | none => ps

/-- Embedding of `gsmi_parse_cpms`, dispatching on the shape selector `opt`
(0 = capability enumeration, 1 = current snapshot, 2 = set acknowledgement)
over the three-pool sequence; the option-0 loop keeps the (dead) failure
branch of the C source. -/
def gsmi_parse_cpms (memMap : List (List Char × Nat)) (unknown : Nat) (str : List Char)
    (opt : Nat) (pools : List gsm_sms_mem_info) : Bool × List gsm_sms_mem_info :=
  let s := dropPlus str
  match opt with
  | 0 =>
    let r0 := gsmi_parse_memories_string memMap unknown s
    let ps := setPool pools 0 (fun p => { p with mem_available := r0.2.1 })
    if r0.1 = false then (false, ps)
    else
      let r1 := gsmi_parse_memories_string memMap unknown r0.2.2
      let ps := setPool ps 1 (fun p => { p with mem_available := r1.2.1 })
      if r1.1 = false then (false, ps)
      else
        let r2 := gsmi_parse_memories_string memMap unknown r1.2.2
        let ps := setPool ps 2 (fun p => { p with mem_available := r2.2.1 })
        if r2.1 = false then (false, ps)
        else (true, ps)
  | 1 =>
    let m0 := gsmi_parse_memory memMap unknown s
    let u0 := gsmi_parse_number m0.2
    let t0 := gsmi_parse_number u0.2
    let ps := setPool pools 0 (fun p => { p with current := m0.1, used := u0.1, total := t0.1 })
    let m1 := gsmi_parse_memory memMap unknown t0.2
    let u1 := gsmi_parse_number m1.2
    let t1 := gsmi_parse_number u1.2
    let ps := setPool ps 1 (fun p => { p with current := m1.1, used := u1.1, total := t1.1 })
    let m2 := gsmi_parse_memory memMap unknown t1.2
    let u2 := gsmi_parse_number m2.2
    let t2 := gsmi_parse_number u2.2
    (true, setPool ps 2 (fun p => { p with current := m2.1, used := u2.1, total := t2.1 }))
  | 2 =>
    let u0 := gsmi_parse_number s
    let t0 := gsmi_parse_number u0.2
    let ps := setPool pools 0 (fun p => { p with used := u0.1, total := t0.1 })
    let u1 := gsmi_parse_number t0.2
    let t1 := gsmi_parse_number u1.2
    let ps := setPool ps 1 (fun p => { p with used := u1.1, total := t1.1 })
    let u2 := gsmi_parse_number t1.2
    let t2 := gsmi_parse_number u2.2
    (true, setPool ps 2 (fun p => { p with used := u2.1, total := t2.1 }))
  | _ => (true, pools)

/-- Digit character for a value below 10 (values ≥ 9 map to `'9'`). -/
def digitChar (k : Nat) : Char :=
  if k = 0 then '0' else if k = 1 then '1' else if k = 2 then '2' else if k = 3 then '3'
  else if k = 4 then '4' else if k = 5 then '5' else if k = 6 then '6' else if k = 7 then '7'
  else if k = 8 then '8' else '9'

/-- Decimal digit string of a natural number, most significant digit first.
Used to build the synthetic lines of the round-trip properties. -/
def natDigits (n : Nat) : List Char :=
  if _ : n < 10 then [digitChar n]
  else natDigits (n / 10) ++ [digitChar (n % 10)]
decreasing_by exact Nat.div_lt_self (by omega) (by omega)

/-- A baseline empty operator record used by concrete test states. -/
def op0 : gsm_operator_t := ⟨0, [], [], 0⟩

/-- A baseline empty active-command record used by concrete test states. -/
def msg0 : gsm_msg :=
  ⟨gsm_cmd.NONE, ⟨0, 0, [], none⟩, ⟨0, 0, [], none⟩, ⟨0, 0, 0, []⟩, ⟨0, 0, [], none⟩, none⟩

/-- A baseline empty SMS entry used by concrete test states. -/
def sme0 : gsm_sms_entry := ⟨0, 0, gsm_sms_status.READ, [], [], ⟨0, 0, 0, 0, 0, 0⟩⟩

/-- The digit loop consumes exactly a maximal digit prefix and folds its
value onto the accumulator. -/
theorem digitsLoop_append (a : Int) (ds rest : List Char)
    (hds : ∀ c ∈ ds, charIsNum c = true)
    (hrest : ∀ c, rest.head? = some c → charIsNum c = false) :
    digitsLoop a (ds ++ rest) = (ds.foldl (fun x c => x * 10 + charToInt c) a, rest) := by
  induction ds generalizing a with
  | nil =>
    simp only [List.nil_append, List.foldl_nil]
    cases rest with
    | nil => rfl
    | cons c cs =>
      have hc := hrest c rfl
      simp [digitsLoop, hc]
  | cons d dtl ih =>
    have hd := hds d (List.mem_cons_self _ _)
    simp only [List.cons_append, digitsLoop, hd, if_true, List.foldl_cons]
    exact ih _ (fun c hc => hds c (List.mem_cons_of_mem _ hc))

/-- A digit character is none of the skipped lead characters, so the lead
phase of `gsmi_parse_number` leaves a digit-headed cursor unchanged. -/
theorem skipLeadAndSign_digit (c : Char) (cs : List Char) (h : charIsNum c = true) :
    skipLeadAndSign (c :: cs) = (false, c :: cs) := by
  have h1 : c ≠ '"' := by rintro rfl; exact absurd h (by decide)
  have h2 : c ≠ ',' := by rintro rfl; exact absurd h (by decide)
  have h3 : c ≠ '/' := by rintro rfl; exact absurd h (by decide)
  have h4 : c ≠ ':' := by rintro rfl; exact absurd h (by decide)
  have h5 : c ≠ '+' := by rintro rfl; exact absurd h (by decide)
  have h6 : c ≠ '-' := by rintro rfl; exact absurd h (by decide)
  simp [skipLeadAndSign, skipIf, h1, h2, h3, h4, h5, h6]

/-- Characterization of `gsmi_parse_number` on a cursor whose remainder after
the lead-skip phase splits into a digit run and a non-digit remainder. -/
theorem parse_number_split (s : List Char) (m : Bool) (ds rest : List Char)
    (h : skipLeadAndSign s = (m, ds ++ rest))
    (hds : ∀ c ∈ ds, charIsNum c = true)
    (hrest : ∀ c, rest.head? = some c → charIsNum c = false) :
    gsmi_parse_number s = ((if m then -decVal ds else decVal ds), skipIf ',' rest) := by
  unfold gsmi_parse_number
  rw [h]
  simp only [digitsLoop_append 0 ds rest hds hrest, decVal]

/-- `gsmi_parse_number` on a digit run followed by a non-digit remainder. -/
theorem parse_number_digits (ds rest : List Char) (hne : ds ≠ [])
    (hds : ∀ c ∈ ds, charIsNum c = true)
    (hrest : ∀ c, rest.head? = some c → charIsNum c = false) :
    gsmi_parse_number (ds ++ rest) = (decVal ds, skipIf ',' rest) := by
  cases ds with
  | nil => exact absurd rfl hne
  | cons d dtl =>
    have hlead := skipLeadAndSign_digit d (dtl ++ rest) (hds d (List.mem_cons_self _ _))
    have := parse_number_split (d :: dtl ++ rest) false (d :: dtl) rest
      (by simpa using hlead) hds hrest
    simpa using this

/-- C7: `gsmi_parse_number` returns the exact signed decimal value of the
digit run following its fixed leading-skip phase (0 for an empty run), stops
accumulating at the first non-digit, and consumes at most one trailing comma;
on `"-123,rest"` it yields −123 with cursor at `"rest"`, and on a plain digit
string the cursor ends immediately after the last digit. -/
theorem C7_parse_number_exact :
    (∀ (s : List Char) (m : Bool) (ds rest : List Char),
        skipLeadAndSign s = (m, ds ++ rest) →
        (∀ c ∈ ds, charIsNum c = true) →
        (∀ c, rest.head? = some c → charIsNum c = false) →
        gsmi_parse_number s = ((if m then -decVal ds else decVal ds), skipIf ',' rest))
    ∧ gsmi_parse_number (toL ("-123,rest")) = (-123, toL ("rest"))
    ∧ (∀ ds : List Char, (∀ c ∈ ds, charIsNum c = true) →
        gsmi_parse_number ds = (decVal ds, [])) := by
  refine ⟨parse_number_split, by decide, fun ds hds => ?_⟩
  cases ds with
  | nil => rfl
  | cons d dtl =>
    have := parse_number_digits (d :: dtl) [] (by simp) hds (by simp)
    simpa using this

/-- C7 witness: the general clause applied at a concrete digit string. -/
theorem C7_witness : gsmi_parse_number (toL ("407")) = (decVal (toL ("407")), []) :=
  C7_parse_number_exact.2.2 (toL ("407")) (by decide)

/-- C8 counterexample: on `"abc",next` with capacity 10 the cursor ends at
the comma before `next` (the closing quote alone is skipped), not at `next`
as the claim states. -/
theorem C8_counterexample :
    (gsmi_parse_string (toL ("\"abc\",next")) true 10 true).written = some (toL ("abc"))
    ∧ (gsmi_parse_string (toL ("\"abc\",next")) true 10 true).rest = toL (",next")
    ∧ ¬ (gsmi_parse_string (toL ("\"abc\",next")) true 10 true).rest = toL ("next") := by
  decide

/-- C8 amended: on the quoted field `"abc"` followed by `,next`,
`gsmi_parse_string` with capacity 10 stores `abc` and leaves the cursor at
the comma preceding `next` (which the next field parser consumes); with
capacity 2 and trimming it stores `a` and still advances past the whole
quoted field; with trimming disabled the copy aborts at capacity, leaving the
cursor inside the field; the function returns 1 in every case. -/
theorem C8_parse_string_cases :
    gsmi_parse_string (toL ("\"abc\",next")) true 10 true =
      ⟨some (toL ("abc")), toL (",next"), true⟩
    ∧ gsmi_parse_string (toL ("\"abc\",next")) true 2 true =
      ⟨some (toL ("a")), toL (",next"), true⟩
    ∧ gsmi_parse_string (toL ("\"abc\",next")) true 2 false =
      ⟨some (toL ("a")), toL ("bc\",next"), true⟩ := by
  decide

/-- Every character produced by `digitChar` is a decimal digit. -/
theorem digitChar_isNum (k : Nat) : charIsNum (digitChar k) = true := by
  unfold digitChar
  repeat' split
  all_goals decide

/-- On values below 10, `digitChar` inverts `charToInt`. -/
theorem charToInt_digitChar (k : Nat) (h : k < 10) : charToInt (digitChar k) = k := by
  interval_cases k <;> decide

/-- Every character of `natDigits n` is a decimal digit. -/
theorem natDigits_all_num (n : Nat) : ∀ c ∈ natDigits n, charIsNum c = true := by
  induction n using Nat.strong_induction_on with
  | _ n ih =>
    unfold natDigits
    split
    · intro c hc
      simp only [List.mem_singleton] at hc
      subst hc
      exact digitChar_isNum _
    · intro c hc
      rename_i h
      rcases List.mem_append.mp hc with h1 | h2
      · exact ih (n / 10) (Nat.div_lt_self (by omega) (by omega)) c h1
      · simp only [List.mem_singleton] at h2
        subst h2
        exact digitChar_isNum _

/-- `natDigits` never produces the empty string. -/
theorem natDigits_ne_nil (n : Nat) : natDigits n ≠ [] := by
  unfold natDigits
  split
  · simp
  · simp

/-- `decVal` recovers the value encoded by `natDigits`. -/
theorem decVal_natDigits (n : Nat) : decVal (natDigits n) = n := by
  induction n using Nat.strong_induction_on with
  | _ n ih =>
    unfold natDigits
    split
    · rename_i h
      simp only [decVal, List.foldl_cons, List.foldl_nil, zero_mul, zero_add]
      exact charToInt_digitChar n h
    · rename_i h
      have hrec := ih (n / 10) (Nat.div_lt_self (by omega) (by omega))
      simp only [decVal, List.foldl_append, List.foldl_cons, List.foldl_nil]
      simp only [decVal] at hrec
      rw [hrec, charToInt_digitChar (n % 10) (Nat.mod_lt _ (by omega))]
      push_cast
      omega

theorem C5_cops_numeric_roundtrip (n lnl snl : Nat) (curr : gsm_operator_curr)
    (gmsg : Option gsm_msg) :
    (gsmi_parse_cops lnl snl ('0' :: ',' :: '2' :: ',' :: (natDigits n ++ ['\r'])) curr gmsg).1 =
      ⟨0, GSM_OPERATOR_FORMAT_NUMBER, op_data.num (n : Int)⟩ := by
  obtain ⟨d, dtl, hnd⟩ : ∃ d dtl, natDigits n = d :: dtl := by
    cases h : natDigits n with
    | nil => exact absurd h (natDigits_ne_nil n)
    | cons a b => exact ⟨a, b, rfl⟩
  have hddig : charIsNum d = true := by
    have h := natDigits_all_num n d
    rw [hnd] at h
    exact h (List.mem_cons_self _ _)
  have hd' : d ≠ '\r' := by
    rintro rfl
    exact absurd hddig (by decide)
  have hdp : dropPlus ('0' :: ',' :: '2' :: ',' :: (natDigits n ++ ['\r'])) =
      '0' :: ',' :: '2' :: ',' :: (natDigits n ++ ['\r']) := by
    unfold dropPlus
    rw [List.head?_cons, if_neg (by decide)]
  have h1 : gsmi_parse_number ('0' :: ',' :: '2' :: ',' :: (natDigits n ++ ['\r'])) =
      (0, '2' :: ',' :: (natDigits n ++ ['\r'])) := by
    have h := parse_number_digits ['0'] (',' :: '2' :: ',' :: (natDigits n ++ ['\r']))
      (by simp) (by decide)
      (by intro c hc; rw [List.head?_cons, Option.some.injEq] at hc; subst hc; decide)
    rw [List.singleton_append] at h
    rw [h]
    simp [skipIf, (by decide : decVal ['0'] = 0)]
  have h2 : gsmi_parse_number ('2' :: ',' :: (natDigits n ++ ['\r'])) =
      (2, natDigits n ++ ['\r']) := by
    have h := parse_number_digits ['2'] (',' :: (natDigits n ++ ['\r']))
      (by simp) (by decide)
      (by intro c hc; rw [List.head?_cons, Option.some.injEq] at hc; subst hc; decide)
    rw [List.singleton_append] at h
    rw [h]
    simp [skipIf, (by decide : decVal ['2'] = 2)]
  have h3 : gsmi_parse_number (natDigits n ++ ['\r']) = ((n : Int), ['\r']) := by
    have h := parse_number_digits (natDigits n) ['\r'] (natDigits_ne_nil n) (natDigits_all_num n)
      (by intro c hc; rw [List.head?_cons, Option.some.injEq] at hc; subst hc; decide)
    rw [h, decVal_natDigits, (by decide : skipIf ',' ['\r'] = ['\r'])]
  have hhead : (natDigits n ++ ['\r']).head? = some d := by
    rw [hnd]
    rfl
  obtain ⟨cm, cf, cd⟩ := curr
  simp only [gsmi_parse_cops, hdp, h1, h2, h3, hhead, List.head?_cons, ne_eq,
    Option.some.injEq, hd', GSM_OPERATOR_FORMAT_LONG_NAME, GSM_OPERATOR_FORMAT_SHORT_NAME,
    GSM_OPERATOR_FORMAT_NUMBER, GSM_OPERATOR_FORMAT_INVALID,
    (by decide : ('2' : Char) ≠ '\r'), (by decide : ¬((2 : Int) = 0)),
    (by decide : ¬((2 : Int) = 1)), not_false_eq_true, if_true, ite_true, ite_false]

/-- C6: `gsmi_parse_cpin` decodes the line body as the first match in the
fixed phrase table (ready / not-ready / not-inserted / PIN / PUK, in that
priority order), defaulting to not-ready on no match, and issues the
secondary fetch-SIM-info request exactly when the resulting SIM state is
ready; it returns 1. -/
theorem C6_cpin_phrase_priority (str : List Char) (send_evt : Bool) :
    (gsmi_parse_cpin str send_evt).sim_state = cpinFirstMatch (dropPlus str)
    ∧ (gsmi_parse_cpin str send_evt).sim_info_requested =
        decide ((gsmi_parse_cpin str send_evt).sim_state = gsm_sim_state.READY)
    ∧ (gsmi_parse_cpin str send_evt).ret = true := by
  refine ⟨?_, rfl, rfl⟩
  rfl

/-- C4 counterexample: on line `1` (status = connected) with the enqueue of
the follow-up operator query failing, `gsmi_parse_creg` still returns 1 — the
same value as when the enqueue succeeds — so the enqueue failure is not
reported through the function's return value. -/
theorem C4_counterexample :
    (gsmi_parse_creg (toL ("1")) false false).op_get_requested = true
    ∧ (gsmi_parse_creg (toL ("1")) false false).ret = true
    ∧ (gsmi_parse_creg (toL ("1")) false false).ret = (gsmi_parse_creg (toL ("1")) false true).ret
    ∧ ¬ (gsmi_parse_creg (toL ("1")) false false).ret = false := by
  decide

/-- C4 amended: `gsmi_parse_creg` parses the status code (optionally skipping
a leading index field), issues the follow-up current-operator query exactly
when the decoded status is connected or connected-roaming; an enqueue failure
of that follow-up only sets the internal callback flag `cb` (consumed by an
empty todo block), while the function's return value is 1 unconditionally. -/
theorem C4_creg_amended (str : List Char) (skip_first enqueueOk : Bool) :
    (gsmi_parse_creg str skip_first enqueueOk).ret = true
    ∧ (gsmi_parse_creg str skip_first enqueueOk).op_get_requested =
        (decide ((gsmi_parse_creg str skip_first enqueueOk).status =
            GSM_NETWORK_REG_STATUS_CONNECTED) ||
          decide ((gsmi_parse_creg str skip_first enqueueOk).status =
            GSM_NETWORK_REG_STATUS_CONNECTED_ROAMING))
    ∧ (gsmi_parse_creg str skip_first enqueueOk).status =
        (gsmi_parse_number (if skip_first then (gsmi_parse_number (dropPlus str)).2
          else dropPlus str)).1
    ∧ (gsmi_parse_creg str skip_first enqueueOk).cb =
        !((gsmi_parse_creg str skip_first enqueueOk).op_get_requested && enqueueOk) := by
  unfold gsmi_parse_creg
  dsimp only
  split <;> split
  all_goals
    first
    | (rename_i h
       rcases h with h | h <;> simp [h])
    | (rename_i h
       push_neg at h
       simp [h.1, h.2])

/-- C1 counterexample: a `+CMGL` line parsed with a matching active command
(`ei = 0`, capacity 2) succeeds (returns 1) yet leaves the write-cursor at 0
instead of advancing it to 1 as the claim states. -/
theorem C1_counterexample :
    (gsmi_parse_cmgl 5 5 []
      (some { msg0 with cmd_def := gsm_cmd.CMGL, sms_list := ⟨0, 0, 2, [sme0, sme0]⟩ })).1 = true
    ∧ ((gsmi_parse_cmgl 5 5 []
        (some { msg0 with cmd_def := gsm_cmd.CMGL, sms_list := ⟨0, 0, 2, [sme0, sme0]⟩ })).2.map
          (fun m => m.sms_list.ei)) = some 0
    ∧ ¬ ((gsmi_parse_cmgl 5 5 []
        (some { msg0 with cmd_def := gsm_cmd.CMGL, sms_list := ⟨0, 0, 2, [sme0, sme0]⟩ })).2.map
          (fun m => m.sms_list.ei)) = some 1 := by
  decide

/-- C1 amended: with no active command of the matching kind or with the
write-cursor at capacity, `gsmi_parse_cpbr`, `gsmi_parse_cpbf` and
`gsmi_parse_cmgl` return failure and leave the command record unchanged;
otherwise each writes exactly one parsed entry at the current write-cursor
position, `cpbr`/`cpbf` additionally advancing the cursor by one (publishing
it through `er`), while `cmgl` leaves the cursor unchanged. -/
theorem C1_list_entry_amended :
    (∀ (nl el : Nat) (str : List Char), gsmi_parse_cpbr nl el str none = (false, none))
    ∧ (∀ (nl el : Nat) (str : List Char) (m : gsm_msg),
        m.cmd_def ≠ gsm_cmd.CPBR ∨ m.pb_list.ei ≥ m.pb_list.etr →
        gsmi_parse_cpbr nl el str (some m) = (false, some m))
    ∧ (∀ (nl el : Nat) (str : List Char) (m : gsm_msg),
        m.cmd_def = gsm_cmd.CPBR → m.pb_list.ei < m.pb_list.etr →
        gsmi_parse_cpbr nl el str (some m) =
          (true, some { m with pb_list :=
            ⟨m.pb_list.ei + 1, m.pb_list.etr,
              m.pb_list.entries.set m.pb_list.ei (pb_entry_from_line nl el str),
              m.pb_list.er.map (fun _ => m.pb_list.ei + 1)⟩ }))
    ∧ (∀ (nl el : Nat) (str : List Char), gsmi_parse_cpbf nl el str none = (false, none))
    ∧ (∀ (nl el : Nat) (str : List Char) (m : gsm_msg),
        m.cmd_def ≠ gsm_cmd.CPBF ∨ m.pb_search.ei ≥ m.pb_search.etr →
        gsmi_parse_cpbf nl el str (some m) = (false, some m))
    ∧ (∀ (nl el : Nat) (str : List Char) (m : gsm_msg),
        m.cmd_def = gsm_cmd.CPBF → m.pb_search.ei < m.pb_search.etr →
        gsmi_parse_cpbf nl el str (some m) =
          (true, some { m with pb_search :=
            ⟨m.pb_search.ei + 1, m.pb_search.etr,
              m.pb_search.entries.set m.pb_search.ei (pb_entry_from_line nl el str),
              m.pb_search.er.map (fun _ => m.pb_search.ei + 1)⟩ }))
    ∧ (∀ (nl el : Nat) (str : List Char), gsmi_parse_cmgl nl el str none = (false, none))
    ∧ (∀ (nl el : Nat) (str : List Char) (m : gsm_msg),
        m.cmd_def ≠ gsm_cmd.CMGL ∨ m.sms_list.ei ≥ m.sms_list.etr →
        gsmi_parse_cmgl nl el str (some m) = (false, some m))
    ∧ (∀ (nl el : Nat) (str : List Char) (m : gsm_msg),
        m.cmd_def = gsm_cmd.CMGL → m.sms_list.ei < m.sms_list.etr →
        gsmi_parse_cmgl nl el str (some m) =
          (true, some { m with sms_list :=
            ⟨m.sms_list.mem, m.sms_list.ei, m.sms_list.etr,
              m.sms_list.entries.set m.sms_list.ei
                (sms_entry_from_line nl el m.sms_list.mem str
                  ((m.sms_list.entries.get? m.sms_list.ei).getD
                    ⟨0, 0, gsm_sms_status.READ, [], [], ⟨0, 0, 0, 0, 0, 0⟩⟩))⟩ })) := by
  refine ⟨fun _ _ _ => rfl, ?_, ?_, fun _ _ _ => rfl, ?_, ?_, fun _ _ _ => rfl, ?_, ?_⟩
  · intro nl el str m h
    unfold gsmi_parse_cpbr
    dsimp only
    rw [if_pos h]
  · intro nl el str m h1 h2
    unfold gsmi_parse_cpbr
    dsimp only
    rw [if_neg (by push_neg; exact ⟨h1, by omega⟩)]
  · intro nl el str m h
    unfold gsmi_parse_cpbf
    dsimp only
    rw [if_pos h]
  · intro nl el str m h1 h2
    unfold gsmi_parse_cpbf
    dsimp only
    rw [if_neg (by push_neg; exact ⟨h1, by omega⟩)]
  · intro nl el str m h
    unfold gsmi_parse_cmgl
    dsimp only
    rw [if_pos h]
  · intro nl el str m h1 h2
    unfold gsmi_parse_cmgl
    dsimp only
    rw [if_neg (by push_neg; exact ⟨h1, by omega⟩)]

/-- C1 witness: the wrong-kind failure clause at a concrete state. -/
theorem C1_witness : gsmi_parse_cpbr 5 5 [] (some msg0) = (false, some msg0) :=
  C1_list_entry_amended.2.1 5 5 [] msg0 (Or.inl (by decide))

/-- C2 counterexample: after a reset call, feeding `'('` then `')'` to the
operator-scan machine with record capacity 1 commits one (blank) record —
record count 1, observer published 1 — and does not latch the empty-list
flag, contradicting the claimed count 0 with the flag latched. -/
theorem C2_counterexample :
    (let m0 : gsm_msg := { msg0 with cops_scan := ⟨0, 1, [op0], some 0⟩ }
     let rr := gsmi_parse_cops_scan 8 8 'x' true ⟨true, true, 3, 7, 'x'⟩ m0
     let r1 := gsmi_parse_cops_scan 8 8 '(' false rr.u rr.msg
     let r2 := gsmi_parse_cops_scan 8 8 ')' false r1.u r1.msg
     r2.msg.cops_scan.opsi = 1 ∧ r2.u.ccd = false ∧ r2.msg.cops_scan.opf = some 1
       ∧ ¬ (r2.msg.cops_scan.opsi = 0 ∧ r2.u.ccd = true)) := by
  decide

/-- C2 amended: after a reset call with record capacity 1, feeding `'('` then
`')'` yields record count 1 (a blank record is committed) with the empty-list
condition not latched; the terminal empty-list condition latches — with zero
records and no writes — when the first character fed after reset is a
comma. -/
theorem C2_scan_empty_amended :
    (let m0 : gsm_msg := { msg0 with cops_scan := ⟨0, 1, [op0], some 0⟩ }
     let rr := gsmi_parse_cops_scan 8 8 'x' true ⟨true, true, 3, 7, 'x'⟩ m0
     let r1 := gsmi_parse_cops_scan 8 8 '(' false rr.u rr.msg
     let r2 := gsmi_parse_cops_scan 8 8 ')' false r1.u r1.msg
     r2.msg.cops_scan.opsi = 1 ∧ r2.u.ccd = false)
    ∧ (let m0 : gsm_msg := { msg0 with cops_scan := ⟨0, 1, [op0], some 0⟩ }
       let rr := gsmi_parse_cops_scan 8 8 'x' true ⟨true, true, 3, 7, 'x'⟩ m0
       let r1 := gsmi_parse_cops_scan 8 8 ',' false rr.u rr.msg
       r1.msg.cops_scan.opsi = 0 ∧ r1.u.ccd = true ∧ r1.msg = rr.msg) := by
  decide

/-- Under a latched empty-list flag or a full record array, one non-reset
feed of the operator-scan machine reduces to an early return that can at most
re-latch the flag from the first-character comma check. -/
theorem cops_scan_latched_step_eq (lnl snl : Nat) (ch : Char) (u : cops_scan_flags)
    (m : gsm_msg) (h : u.ccd = true ∨ m.cops_scan.opsi ≥ m.cops_scan.opsl) :
    gsmi_parse_cops_scan lnl snl ch false u m =
      if u.ch_prev = '\x00' ∧ ch = ' ' then ⟨true, u, m, []⟩
      else ⟨true, (if u.ch_prev = '\x00' ∧ ch = ',' then { u with ccd := true } else u), m, []⟩ := by
  unfold gsmi_parse_cops_scan
  rw [if_neg Bool.false_ne_true]
  by_cases h1 : u.ch_prev = '\x00' ∧ ch = ' '
  · rw [if_pos h1, if_pos h1]
  · rw [if_neg h1, if_neg h1]
    by_cases h2 : u.ch_prev = '\x00' ∧ ch = ','
    · rw [if_pos h2]
      dsimp only
      rw [if_pos (Or.inl rfl)]
    · rw [if_neg h2]
      dsimp only
      rw [if_pos h]

/-- Single-step form of the latched-state invariant: the command record is
untouched, the call returns 1, and the latched/full condition persists. -/
theorem cops_scan_latched_step (lnl snl : Nat) (ch : Char) (u : cops_scan_flags) (m : gsm_msg)
    (h : u.ccd = true ∨ m.cops_scan.opsi ≥ m.cops_scan.opsl) :
    (gsmi_parse_cops_scan lnl snl ch false u m).msg = m ∧
    (gsmi_parse_cops_scan lnl snl ch false u m).ret = true ∧
    ((gsmi_parse_cops_scan lnl snl ch false u m).u.ccd = true ∨
      (gsmi_parse_cops_scan lnl snl ch false u m).msg.cops_scan.opsi ≥
        (gsmi_parse_cops_scan lnl snl ch false u m).msg.cops_scan.opsl) := by
  rw [cops_scan_latched_step_eq lnl snl ch u m h]
  by_cases h1 : u.ch_prev = '\x00' ∧ ch = ' '
  · rw [if_pos h1]
    exact ⟨rfl, rfl, h⟩
  · rw [if_neg h1]
    by_cases h2 : u.ch_prev = '\x00' ∧ ch = ','
    · rw [if_pos h2]
      exact ⟨rfl, rfl, Or.inl rfl⟩
    · rw [if_neg h2]
      exact ⟨rfl, rfl, h⟩

/-- Feeding any character sequence from a latched/full state leaves the
command record (records, count, observer) unchanged. -/
theorem cops_scan_feed_latched (lnl snl : Nat) (chs : List Char) :
    ∀ (u : cops_scan_flags) (m : gsm_msg),
      u.ccd = true ∨ m.cops_scan.opsi ≥ m.cops_scan.opsl →
      (cops_scan_feed lnl snl chs u m).2 = m := by
  induction chs with
  | nil => intro u m _; rfl
  | cons c cs ih =>
    intro u m h
    have hs := cops_scan_latched_step lnl snl c u m h
    have h2 := hs.2.2
    rw [hs.1] at h2
    show (cops_scan_feed lnl snl cs (gsmi_parse_cops_scan lnl snl c false u m).u
      (gsmi_parse_cops_scan lnl snl c false u m).msg).2 = m
    rw [hs.1]
    exact ih _ _ h2

/-- C3: once the empty-list/two-commas flag is latched or the record count
has reached the declared capacity, every subsequent non-reset character is
consumed (return 1) with no change to the record array, the record count, or
the published observer count, for arbitrarily many feeds. -/
theorem C3_scan_latched_ignores (lnl snl : Nat) (chs : List Char) (u : cops_scan_flags)
    (m : gsm_msg) (h : u.ccd = true ∨ m.cops_scan.opsi ≥ m.cops_scan.opsl) :
    (cops_scan_feed lnl snl chs u m).2 = m
    ∧ ∀ ch, (gsmi_parse_cops_scan lnl snl ch false u m).ret = true :=
  ⟨cops_scan_feed_latched lnl snl chs u m h,
    fun ch => (cops_scan_latched_step lnl snl ch u m h).2.1⟩

/-- C3 witness: a latched state fed three concrete characters. -/
theorem C3_witness :
    (cops_scan_feed 8 8 (toL ("ab)")) ⟨false, true, 0, 0, 'a'⟩ msg0).2 = msg0 :=
  (C3_scan_latched_ignores 8 8 (toL ("ab)")) ⟨false, true, 0, 0, 'a'⟩ msg0 (Or.inl rfl)).1

/-- The copy loop of `gsmi_parse_string` copies at most `cap - i` further
characters beyond the accumulator. -/
theorem parse_string_loop_len (cap : Nat) (trim : Bool) :
    ∀ (p : List Char) (i : Nat) (acc : List Char),
      (parse_string_loop cap true trim i acc p).1.length ≤ acc.length + (cap - i) := by
  intro p
  induction p with
  | nil => intro i acc; simp [parse_string_loop]
  | cons c cs ih =>
    intro i acc
    unfold parse_string_loop
    split
    · simp
    · split
      · split
        · rename_i hi
          have h := ih (i + 1) (acc ++ [c])
          simp only [List.length_append, List.length_singleton] at h
          omega
        · split
          · simp
          · have h := ih i acc
            omega
      · have h := ih i acc
        omega

/-- With a present destination, `gsmi_parse_string` stores at most
`max dst_len 1` bytes (terminating NUL included). -/
theorem gsmi_parse_string_bytes (src : List Char) (dst_len : Nat) (trim : Bool) :
    bytesWritten (gsmi_parse_string src true dst_len trim) ≤ max dst_len 1 := by
  have h := parse_string_loop_len (dst_len - 1) trim (skipIf '"' (skipIf ',' src)) 0 []
  simp only [List.length_nil, Nat.zero_add, Nat.sub_zero] at h
  simp only [gsmi_parse_string, bytesWritten, if_true]
  omega

/-- Every name-character store of the data switch lands strictly below the
reserved terminator slot of its buffer. -/
theorem cops_scan_data_writes (lnl snl : Nat) (ch : Char) (u1 : cops_scan_flags) (m : gsm_msg) :
    ∀ w ∈ (cops_scan_data lnl snl ch u1 m).nameWrites,
      w.2 + 1 < (if w.1 = true then lnl else snl) := by
  intro w hw
  unfold cops_scan_data at hw
  repeat' split at hw
  all_goals simp_all
  all_goals omega

/-- Every name-character store of the bracket-open branch lands strictly
below the reserved terminator slot of its buffer. -/
theorem cops_scan_inrec_writes (lnl snl : Nat) (ch : Char) (u1 : cops_scan_flags) (m : gsm_msg) :
    ∀ w ∈ (cops_scan_inrec lnl snl ch u1 m).nameWrites,
      w.2 + 1 < (if w.1 = true then lnl else snl) := by
  intro w hw
  unfold cops_scan_inrec at hw
  repeat' split at hw
  all_goals first
    | simp_all
    | exact cops_scan_data_writes lnl snl ch u1 m w hw

/-- Every name-character store of a `gsmi_parse_cops_scan` feed lands
strictly below the reserved terminator slot of its buffer. -/
theorem cops_scan_writes_bound (lnl snl : Nat) (ch : Char) (reset : Bool)
    (u : cops_scan_flags) (m : gsm_msg) :
    ∀ w ∈ (gsmi_parse_cops_scan lnl snl ch reset u m).nameWrites,
      w.2 + 1 < (if w.1 = true then lnl else snl) := by
  intro w hw
  unfold gsmi_parse_cops_scan at hw
  by_cases hr : reset = true
  · rw [if_pos hr] at hw
    simp at hw
  · rw [if_neg hr] at hw
    by_cases hsp : u.ch_prev = '\x00' ∧ ch = ' '
    · rw [if_pos hsp] at hw
      simp at hw
    · rw [if_neg hsp] at hw
      dsimp only at hw
      set u1 := (if u.ch_prev = '\x00' ∧ ch = ',' then { u with ccd := true } else u) with hu1
      by_cases hcc : u1.ccd = true ∨ m.cops_scan.opsi ≥ m.cops_scan.opsl
      · rw [if_pos hcc] at hw
        simp at hw
      · rw [if_neg hcc] at hw
        by_cases hbo : u1.bo = true
        · rw [if_pos hbo] at hw
          exact cops_scan_inrec_writes lnl snl ch u1 m w hw
        · rw [if_neg hbo] at hw
          by_cases hop : ch = '('
          · rw [if_pos hop] at hw
            simp at hw
          · rw [if_neg hop] at hw
            by_cases hcm : ch = ',' ∧ u1.ch_prev = ','
            · rw [if_pos hcm] at hw
              simp at hw
            · rw [if_neg hcm] at hw
              simp at hw

/-- C9 counterexample: a `gsmi_parse_string` call with a present destination
of declared length 0 still stores the terminating NUL — one byte, exceeding
the claimed bound of 0 bytes. -/
theorem C9_counterexample :
    bytesWritten (gsmi_parse_string (toL ("x")) true 0 true) = 1
    ∧ ¬ bytesWritten (gsmi_parse_string (toL ("x")) true 0 true) ≤ 0 := by
  decide

/-- C9 amended: a `gsmi_parse_string` call with a present destination of
declared length `dst_len` stores at most `max dst_len 1` bytes (the
terminating NUL is stored even when `dst_len = 0`), and none with an absent
destination; the operator-scan machine never stores a long-name or
short-name character at or beyond the buffer's reserved terminator slot. -/
theorem C9_capacity_amended :
    (∀ (src : List Char) (dst_len : Nat) (trim : Bool),
        bytesWritten (gsmi_parse_string src true dst_len trim) ≤ max dst_len 1)
    ∧ (∀ (src : List Char) (dst_len : Nat) (trim : Bool),
        bytesWritten (gsmi_parse_string src false dst_len trim) = 0)
    ∧ (∀ (lnl snl : Nat) (ch : Char) (reset : Bool) (u : cops_scan_flags) (m : gsm_msg),
        ∀ w ∈ (gsmi_parse_cops_scan lnl snl ch reset u m).nameWrites,
          w.2 + 1 < (if w.1 = true then lnl else snl)) :=
  ⟨gsmi_parse_string_bytes, fun _ _ _ => rfl, cops_scan_writes_bound⟩

/-- C9 witness: the scan write-bound clause at a concrete in-record feed that
performs one long-name store at index 0. -/
theorem C9_witness :
    ((true, 0) : Bool × Nat).2 + 1 < (if ((true, 0) : Bool × Nat).1 = true then 8 else 8) :=
  C9_capacity_amended.2.2 8 8 'A' false ⟨true, false, 1, 0, '('⟩
    { msg0 with cops_scan := ⟨0, 1, [op0], none⟩ } (true, 0) (by decide)

/-- When the sentinel and every table identifier are below 32,
`gsmi_parse_memory` returns an identifier below 32. -/
theorem parse_memory_lt (memMap : List (List Char × Nat)) (unknown : Nat) (src : List Char)
    (hu : unknown < 32) (hm : ∀ e ∈ memMap, e.2 < 32) :
    (gsmi_parse_memory memMap unknown src).1 < 32 := by
  unfold gsmi_parse_memory
  dsimp only
  cases hf : memMap.find? (fun e => e.1.isPrefixOf (skipIf '"' (skipIf ',' src))) with
  | none => simpa using hu
  | some e =>
    have hmem := List.mem_of_find?_eq_some hf
    simpa using hm e hmem

/-- OR-ing into the `uint32_t` mask preserves any already-set low bit. -/
theorem or_mod_testBit (mask x b : Nat) (hb : b < 32) (h : mask.testBit b = true) :
    ((mask ||| x) % 2 ^ 32).testBit b = true := by
  rw [Nat.testBit_mod_two_pow, Nat.testBit_lor, h]
  simp [hb]

/-- The memory loop preserves any already-set low bit of the mask. -/
theorem memories_loop_testBit (memMap : List (List Char × Nat)) (unknown : Nat) (b : Nat)
    (hb : b < 32) :
    ∀ (fuel : Nat) (s : List Char) (mask : Nat), mask.testBit b = true →
      ((memories_loop memMap unknown fuel s mask).1).testBit b = true := by
  intro fuel
  induction fuel with
  | zero => intro s mask h; exact h
  | succ f ih =>
    intro s mask h
    unfold memories_loop
    dsimp only
    have hm : ((mask ||| ((1 <<< (gsmi_parse_memory memMap unknown s).1) % 2 ^ 32)) % 2 ^ 32).testBit b = true :=
      or_mod_testBit _ _ _ hb h
    cases hs : (gsmi_parse_memory memMap unknown s).2 with
    | nil => exact hm
    | cons c cs =>
      dsimp only
      by_cases hc : c = ')'
      · rw [if_pos hc]
        exact hm
      · rw [if_neg hc]
        exact ih _ _ hm

/-- `gsmi_parse_memories_string` always sets at least one bit: its do-while
body runs at least once and ORs `1 << mem` into the mask. -/
theorem memories_string_mask_bit (memMap : List (List Char × Nat)) (unknown : Nat)
    (src : List Char) (hu : unknown < 32) (hm : ∀ e ∈ memMap, e.2 < 32) :
    (gsmi_parse_memories_string memMap unknown src).2.1 ≠ 0 := by
  unfold gsmi_parse_memories_string
  dsimp only
  set s := skipIf '(' (skipIf ',' src) with hs
  have hlt := parse_memory_lt memMap unknown s hu hm
  have hbit0 : ((0 ||| ((1 <<< (gsmi_parse_memory memMap unknown s).1) % 2 ^ 32)) % 2 ^ 32).testBit
      (gsmi_parse_memory memMap unknown s).1 = true := by
    rw [Nat.testBit_mod_two_pow, Nat.testBit_lor, Nat.shiftLeft_eq, one_mul,
      Nat.testBit_mod_two_pow, Nat.testBit_two_pow_self]
    simp [hlt]
  have hfinal : ((memories_loop memMap unknown (s.length + 1) s 0).1).testBit
      (gsmi_parse_memory memMap unknown s).1 = true := by
    show ((memories_loop memMap unknown (s.length + 1) s 0).1).testBit _ = true
    unfold memories_loop
    dsimp only
    cases hs2 : (gsmi_parse_memory memMap unknown s).2 with
    | nil => exact hbit0
    | cons c cs =>
      dsimp only
      by_cases hc : c = ')'
      · rw [if_pos hc]
        exact hbit0
      · rw [if_neg hc]
        exact memories_loop_testBit memMap unknown _ hlt _ _ _ hbit0
  intro h0
  rw [h0] at hfinal
  rw [Nat.zero_testBit] at hfinal
  exact Bool.false_ne_true hfinal

/-- C10: `gsmi_parse_memories_string` returns 1 for every input, and (for a
memory table whose identifiers, like the sentinel, are below the 32-bit mask
width) always sets at least one bit in the output mask — even on an empty
or fully unmatched list, where the do-while body still runs once yielding
the unknown-memory sentinel bit; consequently the failure branch of
`gsmi_parse_cpms` option 0 is unreachable and `gsmi_parse_cpms` returns 1
for every input and option value. -/
theorem C10_memories_total :
    (∀ (memMap : List (List Char × Nat)) (unknown : Nat) (src : List Char),
        (gsmi_parse_memories_string memMap unknown src).1 = true)
    ∧ (∀ (memMap : List (List Char × Nat)) (unknown : Nat) (src : List Char),
        unknown < 32 → (∀ e ∈ memMap, e.2 < 32) →
        (gsmi_parse_memories_string memMap unknown src).2.1 ≠ 0)
    ∧ (∀ (memMap : List (List Char × Nat)) (unknown : Nat) (str : List Char) (opt : Nat)
        (pools : List gsm_sms_mem_info),
        (gsmi_parse_cpms memMap unknown str opt pools).1 = true) := by
  refine ⟨fun _ _ _ => rfl, memories_string_mask_bit, ?_⟩
  intro memMap unknown str opt pools
  match opt with
  | 0 => rfl
  | 1 => rfl
  | 2 => rfl
  | _ + 3 => rfl

/-- C10 witness: the nonzero-mask clause at a concrete table and line. -/
theorem C10_witness :
    (gsmi_parse_memories_string [(toL ("SM"), 1)] 0 (toL ("(\"SM\")"))).2.1 ≠ 0 :=
  C10_memories_total.2.1 [(toL ("SM"), 1)] 0 (toL ("(\"SM\")")) (by decide) (by decide)
